import Mathlib

/-!
Verification of the glean-core state-coordination layer
(`src/glean-core/src/lib.rs`): the synchronized facade `Glean`, its
coordinator state, the lifetime-scoped store adapter, and the bootstrap
sequence run by `initialize`.

The facade (`lib.rs`) is embedded directly.  The private modules it
delegates to (`inner.rs`, `database.rs`, `internal_metrics.rs`,
`first_run.rs`, `metrics.rs`, `common_metric_data.rs`) are not part of the
sources; their behaviour is modelled from the specification, and each such
definition is marked `Modelled from the spec:` in its doc comment.
The facade's reader/writer lock serializes every operation, so the
embedding is the sequential state semantics: each facade operation is one
atomic step on the coordinator state; readers are embedded in
state-passing style (returning the state alongside the value) so that
their freedom from mutation is a provable statement rather than a typing
convention.
-/

namespace GleanCore

/-- Modelled from the spec: `Lifetime` (re-exported by `lib.rs` from
`common_metric_data.rs`, which is absent) is the closed enumeration
{Ping, Application, User}. -/
inductive Lifetime
  | Ping
  | Application
  | User
deriving DecidableEq, Repr

/-- Modelled from the spec: `Metric` (from `metrics.rs`, which is absent)
is an opaque tagged union of concrete metric kinds; the core never
inspects its contents.  A small closed set of kinds suffices for the
coordinator, which treats the value as indivisible. -/
inductive Metric
  | Counter (n : Nat)
  | Str (s : String)
  | Boolean (b : Bool)
  | Uuid (s : String)
deriving DecidableEq, Repr

/-- The contents of one physical store: an association list from raw
storage keys to metrics, kept strictly sorted by key (the underlying
key-value engine iterates entries in key order). -/
abbrev Store := List (String × Metric)

/-- Point lookup of a raw storage key in one store. -/
def lookupKey (k : String) : Store → Option Metric
  | [] => none
  | (k', v) :: rest => if k = k' then some v else lookupKey k rest

/-- Sorted-order-preserving point write: inserts `(k, v)`, overwriting any
previous entry at `k`. -/
def putKey (k : String) (v : Metric) : Store → Store
  | [] => [(k, v)]
  | (k', v') :: rest =>
    if k < k' then (k, v) :: (k', v') :: rest
    else if k = k' then (k, v) :: rest
    else (k', v') :: putKey k v rest

/-- A store is well-formed when its keys are strictly increasing. -/
def SortedStore (s : Store) : Prop :=
  s.Pairwise (fun a b => a.1 < b.1)

/-- Modelled from the spec: the store adapter (`database.rs`, which is
absent) maps each `Lifetime` to a distinct physical store. -/
structure Database where
  stores : Lifetime → Store

/-- Modelled from the spec: the storage key is derived from
`(ping_name, key)` for the Ping lifetime and from `key` alone for the
globally-scoped lifetimes (`database.rs`, which is absent). -/
def storageKey (lifetime : Lifetime) (pingName key : String) : String :=
  match lifetime with
  | .Ping => pingName ++ "#" ++ key
  | _ => key

/-- Modelled from the spec: `Database::record` — point write of the
derived storage key inside one write transaction, unconditional overwrite
(`database.rs`, which is absent). -/
def Database.record (db : Database) (lifetime : Lifetime) (pingName key : String)
    (metric : Metric) : Database :=
  ⟨Function.update db.stores lifetime
    (putKey (storageKey lifetime pingName key) metric (db.stores lifetime))⟩

/-- Modelled from the spec: `Database::record_with` — reads the current
value at the derived key (if any), computes `transform(current_or_none)`,
writes the result back, all inside one write transaction
(`database.rs`, which is absent). -/
def Database.record_with (db : Database) (lifetime : Lifetime) (pingName key : String)
    (transform : Option Metric → Metric) : Database :=
  ⟨Function.update db.stores lifetime
    (putKey (storageKey lifetime pingName key)
      (transform (lookupKey (storageKey lifetime pingName key) (db.stores lifetime)))
      (db.stores lifetime))⟩

/-- Modelled from the spec: `Database::iter_store_from` — iterates, inside
one read snapshot, all stored entries of the lifetime whose raw key is
lexicographically ≥ the start key, in key order (`database.rs`, which is
absent).  The visitor is driven over the returned list. -/
def Database.iter_store_from (db : Database) (lifetime : Lifetime)
    (iterStart : String) : Store :=
  (db.stores lifetime).filter (fun e => decide (iterStart ≤ e.1))

/-- Modelled from the spec: `Database::write_with_store` — opens one write
transaction on the lifetime's store and hands it to the transaction
function; the new contents are committed iff the function completes
without failure, otherwise the transaction is discarded
(`database.rs`, which is absent). -/
def Database.write_with_store (db : Database) (storeName : Lifetime)
    (transactionFn : Store → Except String Store) : Database :=
  match transactionFn (db.stores storeName) with
  | .ok s => ⟨Function.update db.stores storeName s⟩
  | .error _ => db

/-- Modelled from the spec: the coordinator state `Inner` (`inner.rs`,
which is absent): owns the store adapter, the `upload_enabled` flag
(default true), the `initialized` flag, and the data path the store is
rooted at once opened. -/
structure Inner where
  initialized : Bool
  upload_enabled : Bool
  data_path : Option String
  data_store : Database

/-- Modelled from the spec: `Inner::new` — inert pre-initialization state:
not initialized, upload enabled by default, no store opened. -/
def Inner.new : Inner :=
  ⟨false, true, none, ⟨fun _ => []⟩⟩

/-- Modelled from the spec: `Inner::initialize` — opens/creates the store
adapter rooted at `data_path` and sets `initialized = true`
(`inner.rs`, which is absent). -/
def Inner.initialize (inner : Inner) (dataPath : String) : Inner :=
  { inner with initialized := true, data_path := some dataPath }

/-- The synchronized facade (`lib.rs`, `struct Glean`): the coordinator
state behind the reader/writer lock.  Under the lock's serialization each
facade call is one atomic step, so the lock itself is the identity of this
sequential semantics. -/
structure Glean where
  inner : Inner

/-- `Glean::new` (`lib.rs`). -/
def Glean.new : Glean := ⟨Inner.new⟩

/-- `Glean::is_initialized` (`lib.rs`): shared-lock read, embedded in
state-passing style (the returned state is the facade state after the
call). -/
def Glean.is_initialized (g : Glean) : Bool × Glean :=
  (g.inner.initialized, g)

/-- `Glean::set_upload_enabled` (`lib.rs`): exclusive-lock flag flip; the
flag flip itself performs no storage change (modelled from the spec for
`inner.rs`, which is absent). -/
def Glean.set_upload_enabled (g : Glean) (flag : Bool) : Glean :=
  { g with inner := { g.inner with upload_enabled := flag } }

/-- `Glean::is_upload_enabled` (`lib.rs`): shared-lock read, embedded in
state-passing style. -/
def Glean.is_upload_enabled (g : Glean) : Bool × Glean :=
  (g.inner.upload_enabled, g)

/-- `Glean::iter_store_from` (`lib.rs`): shared-lock read delegating to
the store adapter, embedded in state-passing style. -/
def Glean.iter_store_from (g : Glean) (lifetime : Lifetime)
    (iterStart : String) : Store × Glean :=
  (g.inner.data_store.iter_store_from lifetime iterStart, g)

/-- `Glean::write_with_store` (`lib.rs`): exclusive lock, delegates to the
store adapter's transactional write. -/
def Glean.write_with_store (g : Glean) (storeName : Lifetime)
    (transactionFn : Store → Except String Store) : Glean :=
  { g with inner :=
    { g.inner with data_store := g.inner.data_store.write_with_store storeName transactionFn } }

/-- `Glean::record` (`lib.rs`): exclusive lock, delegates to the store
adapter's point write.  The silent drop when upload is disabled or the
library is not yet initialized is modelled from the spec (the checking
code lives in the absent modules; `lib.rs` documents that when upload is
disabled no data will be recorded, and the spec fixes the
pre-initialization policy as a silent no-op). -/
def Glean.record (g : Glean) (lifetime : Lifetime) (pingName key : String)
    (metric : Metric) : Glean :=
  if g.inner.initialized && g.inner.upload_enabled then
    { g with inner :=
      { g.inner with data_store := g.inner.data_store.record lifetime pingName key metric } }
  else g

/-- `Glean::record_with` (`lib.rs`): exclusive lock, delegates to the
store adapter's read-modify-write.  Gated like `Glean.record` (modelled
from the spec, as for `Glean.record`). -/
def Glean.record_with (g : Glean) (lifetime : Lifetime) (pingName key : String)
    (transform : Option Metric → Metric) : Glean :=
  if g.inner.initialized && g.inner.upload_enabled then
    { g with inner :=
      { g.inner with data_store :=
          g.inner.data_store.record_with lifetime pingName key transform } }
  else g

/-- Modelled from the spec: the lifetime, ping name and key under which
the bootstrap metrics live (`internal_metrics.rs`, which is absent): both
core metrics use a globally-scoped lifetime and the internal ping. -/
def coreLifetime : Lifetime := .User

/-- Modelled from the spec: the internal ping name the core metrics are
sent with (`internal_metrics.rs`, which is absent). -/
def corePing : String := "glean_internal_info"

/-- Modelled from the spec: the storage key of the first-run status metric
(`internal_metrics.rs`, which is absent). -/
def firstRunKey : String := "first_run"

/-- Modelled from the spec: the storage key of the client identifier
metric (`internal_metrics.rs`, which is absent). -/
def clientIdKey : String := "client_id"

/-- Modelled from the spec: `client_id.generate_if_missing`
(`internal_metrics.rs`, which is absent) — ensure a stable client
identifier exists, generating and persisting one only if none is
currently stored; the read-check-then-write runs via `record_with` to be
atomic.  `fresh` is the identifier the generator would produce if one is
needed. -/
def Glean.generate_if_missing (g : Glean) (fresh : String) : Glean :=
  g.record_with coreLifetime corePing clientIdKey
    (fun cur =>
      match cur with
      | some m => m
      | none => .Uuid fresh)

/-- `Glean::initialize_core_metrics` (`lib.rs`): records the first-run
status and ensures the client identifier, through the same public
recording API used by clients.  `firstRun` stands for the result of the
external first-run detection collaborator (`first_run.rs`, which is
absent), `fresh` for the identifier generation collaborator. -/
def Glean.initialize_core_metrics (g : Glean) (firstRun : Bool) (fresh : String) : Glean :=
  (g.record coreLifetime corePing firstRunKey (.Boolean firstRun)).generate_if_missing fresh

/-- `Glean::initialize` (`lib.rs`): exclusive-locked coordinator
initialization, then — after the lock is dropped — the bootstrap sequence
through the public API. -/
def Glean.initialize (g : Glean) (dataPath : String) (firstRun : Bool)
    (fresh : String) : Glean :=
  Glean.initialize_core_metrics { g with inner := g.inner.initialize dataPath } firstRun fresh

/-- The stored client identifier of a facade state. -/
def Glean.clientId (g : Glean) : Option Metric :=
  lookupKey (storageKey coreLifetime corePing clientIdKey)
    (g.inner.data_store.stores coreLifetime)

/-- Lock/recording events of the facade, used to state the temporal shape
of `Glean::initialize`: which frame acquires and releases the exclusive
lock, the coordinator setup, and the bootstrap metric recordings. -/
inductive Event
  | acquireExclusive (owner : String)
  | releaseExclusive (owner : String)
  | coordInitialize (dataPath : String)
  | bootstrapRecord (metricName : String)
deriving DecidableEq, Repr

/-- Recognizes the acquisition of the exclusive lock by the `initialize`
frame itself. -/
def isInitAcquire : Event → Bool
  | .acquireExclusive owner => owner = "initialize"
  | _ => false

/-- Recognizes the release of the exclusive lock by the `initialize` frame
itself. -/
def isInitRelease : Event → Bool
  | .releaseExclusive owner => owner = "initialize"
  | _ => false

/-- Recognizes a bootstrap metric recording. -/
def isBootstrapRecord : Event → Bool
  | .bootstrapRecord _ => true
  | _ => false

/-- `initialize`'s own exclusive lock is held at a point of a trace iff
its acquisitions strictly outnumber its releases in the prefix before
that point. -/
def initLockHeld (prefixEvents : List Event) : Prop :=
  prefixEvents.countP isInitRelease < prefixEvents.countP isInitAcquire

/-- The exclusive-locked phase of `Glean::initialize` (`lib.rs`): the
write lock is taken, `Inner::initialize` runs, and the guard is dropped
before any metric setter is called. -/
def initializeLockedPhase (dataPath : String) : List Event :=
  [.acquireExclusive "initialize", .coordInitialize dataPath,
   .releaseExclusive "initialize"]

/-- The bootstrap phase of `Glean::initialize` (`lib.rs`,
`initialize_core_metrics`): each bootstrap metric is recorded through the
public recording API, which takes and releases the exclusive lock itself
(modelled from the spec for `internal_metrics.rs`, which is absent). -/
def bootstrapPhase : List Event :=
  [.acquireExclusive "record", .bootstrapRecord "first_run",
   .releaseExclusive "record",
   .acquireExclusive "record_with", .bootstrapRecord "client_id",
   .releaseExclusive "record_with"]

/-- The event trace of `Glean::initialize` (`lib.rs`): the locked
coordinator setup followed by the lock-free bootstrap phase. -/
def initializeTrace (dataPath : String) : List Event :=
  initializeLockedPhase dataPath ++ bootstrapPhase

instance (s : Store) : Decidable (SortedStore s) := by
  unfold SortedStore
  infer_instance

/-- The serialized execution of a sequence of `record_with` calls on one
key, in lock-acquisition order: under the facade's exclusive lock, N
concurrent `record_with` calls on the same key are linearized into some
serial order, and the serialized execution is this fold. -/
def recordAllWith (g : Glean) (lifetime : Lifetime) (pingName key : String)
    (ts : List (Option Metric → Metric)) : Glean :=
  ts.foldl (fun st t => st.record_with lifetime pingName key t) g

/-- The value obtained by applying every transform, in order, to the
initially stored value (or none). -/
def applyTransforms (ts : List (Option Metric → Metric)) (cur : Option Metric) :
    Option Metric :=
  ts.foldl (fun c t => some (t c)) cur

/-! ### Concrete fixtures for the witnesses -/

/-- A concrete facade state reached by initializing a fresh instance. -/
def gBoot : Glean := Glean.new.initialize "/tmp/x" true "id-0"

/-- A concrete counter-increment transform. -/
def bump : Option Metric → Metric
  | some (.Counter n) => .Counter (n + 1)
  | _ => .Counter 1

/-- A concrete facade state whose Ping store holds three sorted entries. -/
def gIter : Glean :=
  ⟨⟨true, true, some "/tmp/x",
    ⟨fun lifetime =>
      match lifetime with
      | .Ping => [("a", .Counter 1), ("m", .Counter 2), ("z", .Counter 3)]
      | _ => []⟩⟩⟩

/-- A concrete initialized facade state that already stores a client
identifier. -/
def gWithId : Glean :=
  ⟨⟨true, true, some "/tmp/x",
    ⟨fun lifetime =>
      match lifetime with
      | .User => [("client_id", .Uuid "cid-7")]
      | _ => []⟩⟩⟩

/-- A concrete committing transaction function. -/
def txnOk : Store → Except String Store :=
  fun s => .ok (putKey "w1" (.Counter 7) s)

/-- A concrete failing transaction function. -/
def txnFail : Store → Except String Store :=
  fun _ => .error "diskfull"

/-! ### Store-level lemmas -/

theorem string_empty_le (s : String) : "" ≤ s := by
  rw [String.le_iff_toList_le, String.toList_empty]
  exact List.nil_le

theorem lookupKey_putKey_self (k : String) (v : Metric) (s : Store) :
    lookupKey k (putKey k v s) = some v := by
  induction s with
  | nil => simp [putKey, lookupKey]
  | cons e rest ih =>
    obtain ⟨k', v'⟩ := e
    by_cases h1 : k < k'
    · simp [putKey, h1, lookupKey]
    · by_cases h2 : k = k'
      · simp [putKey, h1, h2, lookupKey]
      · simp [putKey, h1, h2, lookupKey, ih]

theorem lookupKey_putKey_ne (k q : String) (hne : q ≠ k) (v : Metric) (s : Store) :
    lookupKey q (putKey k v s) = lookupKey q s := by
  induction s with
  | nil => simp [putKey, lookupKey, hne]
  | cons e rest ih =>
    obtain ⟨k', v'⟩ := e
    by_cases h1 : k < k'
    · simp [putKey, h1, lookupKey, hne]
    · by_cases h2 : k = k'
      · subst h2
        simp [putKey, h1, lookupKey, hne]
      · simp [putKey, h1, h2, lookupKey, ih]

theorem putKey_cons_lt {k k' : String} (h1 : k < k') (v v' : Metric) (rest : Store) :
    putKey k v ((k', v') :: rest) = (k, v) :: (k', v') :: rest := by
  simp [putKey, h1]

theorem putKey_cons_eq (k : String) (v v' : Metric) (rest : Store) :
    putKey k v ((k, v') :: rest) = (k, v) :: rest := by
  simp [putKey]

theorem putKey_cons_gt {k k' : String} (h1 : ¬ k < k') (h2 : ¬ k = k') (v v' : Metric)
    (rest : Store) :
    putKey k v ((k', v') :: rest) = (k', v') :: putKey k v rest := by
  simp [putKey, h1, h2]

theorem mem_putKey_self (k : String) (v : Metric) (s : Store) :
    (k, v) ∈ putKey k v s := by
  induction s with
  | nil => simp [putKey]
  | cons e rest ih =>
    obtain ⟨k', v'⟩ := e
    by_cases h1 : k < k'
    · rw [putKey_cons_lt h1]
      exact List.mem_cons_self _ _
    · by_cases h2 : k = k'
      · subst h2
        rw [putKey_cons_eq]
        exact List.mem_cons_self _ _
      · rw [putKey_cons_gt h1 h2]
        exact List.mem_cons_of_mem _ ih

theorem mem_putKey (k : String) (v : Metric) {s : Store} {e : String × Metric}
    (he : e ∈ putKey k v s) : e = (k, v) ∨ e ∈ s := by
  induction s with
  | nil =>
    simp [putKey] at he
    exact Or.inl he
  | cons hd rest ih =>
    obtain ⟨k', v'⟩ := hd
    by_cases h1 : k < k'
    · rw [putKey_cons_lt h1] at he
      rcases List.mem_cons.mp he with he | he
      · exact Or.inl he
      · exact Or.inr he
    · by_cases h2 : k = k'
      · subst h2
        rw [putKey_cons_eq] at he
        rcases List.mem_cons.mp he with he | he
        · exact Or.inl he
        · exact Or.inr (List.mem_cons_of_mem _ he)
      · rw [putKey_cons_gt h1 h2] at he
        rcases List.mem_cons.mp he with he | he
        · exact Or.inr (he ▸ List.mem_cons_self _ _)
        · rcases ih he with h | h
          · exact Or.inl h
          · exact Or.inr (List.mem_cons_of_mem _ h)

theorem sortedStore_putKey (k : String) (v : Metric) {s : Store}
    (hs : SortedStore s) : SortedStore (putKey k v s) := by
  induction s with
  | nil =>
    simp [putKey, SortedStore]
  | cons hd rest ih =>
    obtain ⟨k', v'⟩ := hd
    rw [SortedStore, List.pairwise_cons] at hs
    obtain ⟨hhead, hrest⟩ := hs
    by_cases h1 : k < k'
    · rw [SortedStore, putKey_cons_lt h1]
      refine List.Pairwise.cons ?_ (List.Pairwise.cons hhead hrest)
      intro b hb
      rcases List.mem_cons.mp hb with hb | hb
      · rw [hb]
        exact h1
      · exact lt_trans h1 (hhead b hb)
    · by_cases h2 : k = k'
      · subst h2
        rw [SortedStore, putKey_cons_eq]
        exact List.Pairwise.cons hhead hrest
      · have h3 : k' < k := lt_of_le_of_ne (not_lt.mp h1) (Ne.symm h2)
        rw [SortedStore, putKey_cons_gt h1 h2]
        refine List.Pairwise.cons ?_ (ih hrest)
        intro b hb
        rcases mem_putKey k v hb with hb | hb
        · rw [hb]
          exact h3
        · exact hhead b hb

/-! ### Facade frame lemmas (shared helpers) -/

theorem record_inner_frame (g : Glean) (lifetime : Lifetime) (pingName key : String)
    (metric : Metric) :
    (g.record lifetime pingName key metric).inner.initialized = g.inner.initialized ∧
    (g.record lifetime pingName key metric).inner.upload_enabled = g.inner.upload_enabled ∧
    (g.record lifetime pingName key metric).inner.data_path = g.inner.data_path := by
  unfold Glean.record
  split <;> exact ⟨rfl, rfl, rfl⟩

theorem record_with_inner_frame (g : Glean) (lifetime : Lifetime) (pingName key : String)
    (transform : Option Metric → Metric) :
    (g.record_with lifetime pingName key transform).inner.initialized = g.inner.initialized ∧
    (g.record_with lifetime pingName key transform).inner.upload_enabled = g.inner.upload_enabled ∧
    (g.record_with lifetime pingName key transform).inner.data_path = g.inner.data_path := by
  unfold Glean.record_with
  split <;> exact ⟨rfl, rfl, rfl⟩

theorem write_with_store_inner_frame (g : Glean) (storeName : Lifetime)
    (transactionFn : Store → Except String Store) :
    (g.write_with_store storeName transactionFn).inner.initialized = g.inner.initialized ∧
    (g.write_with_store storeName transactionFn).inner.upload_enabled = g.inner.upload_enabled ∧
    (g.write_with_store storeName transactionFn).inner.data_path = g.inner.data_path :=
  ⟨rfl, rfl, rfl⟩

theorem record_stores_eq (g : Glean) (lifetime : Lifetime) (pingName key : String)
    (metric : Metric) (hi : g.inner.initialized = true)
    (hu : g.inner.upload_enabled = true) :
    (g.record lifetime pingName key metric).inner.data_store.stores lifetime =
      putKey (storageKey lifetime pingName key) metric
        (g.inner.data_store.stores lifetime) := by
  unfold Glean.record
  simp [hi, hu, Database.record]

theorem record_with_stores_eq (g : Glean) (lifetime : Lifetime) (pingName key : String)
    (transform : Option Metric → Metric) (hi : g.inner.initialized = true)
    (hu : g.inner.upload_enabled = true) :
    (g.record_with lifetime pingName key transform).inner.data_store.stores lifetime =
      putKey (storageKey lifetime pingName key)
        (transform (lookupKey (storageKey lifetime pingName key)
          (g.inner.data_store.stores lifetime)))
        (g.inner.data_store.stores lifetime) := by
  unfold Glean.record_with
  simp [hi, hu, Database.record_with]

theorem lookupKey_record_with (g : Glean) (lifetime : Lifetime) (pingName key : String)
    (transform : Option Metric → Metric) (hi : g.inner.initialized = true)
    (hu : g.inner.upload_enabled = true) :
    lookupKey (storageKey lifetime pingName key)
        ((g.record_with lifetime pingName key transform).inner.data_store.stores lifetime) =
      some (transform (lookupKey (storageKey lifetime pingName key)
        (g.inner.data_store.stores lifetime))) := by
  rw [record_with_stores_eq g lifetime pingName key transform hi hu, lookupKey_putKey_self]

theorem lookupKey_recordAllWith (lifetime : Lifetime) (pingName key : String)
    (ts : List (Option Metric → Metric)) :
    ∀ (g : Glean), g.inner.initialized = true → g.inner.upload_enabled = true →
      lookupKey (storageKey lifetime pingName key)
          ((recordAllWith g lifetime pingName key ts).inner.data_store.stores lifetime) =
        applyTransforms ts
          (lookupKey (storageKey lifetime pingName key)
            (g.inner.data_store.stores lifetime)) := by
  induction ts with
  | nil =>
    intro g hi hu
    rfl
  | cons t ts ih =>
    intro g hi hu
    have hframe := record_with_inner_frame g lifetime pingName key t
    have hstep := lookupKey_record_with g lifetime pingName key t hi hu
    have hrest := ih (g.record_with lifetime pingName key t)
      (hframe.1.trans hi) (hframe.2.1.trans hu)
    have hfold : recordAllWith g lifetime pingName key (t :: ts)
        = recordAllWith (g.record_with lifetime pingName key t) lifetime pingName key ts := rfl
    have happ : applyTransforms (t :: ts)
          (lookupKey (storageKey lifetime pingName key) (g.inner.data_store.stores lifetime))
        = applyTransforms ts
          (some (t (lookupKey (storageKey lifetime pingName key)
            (g.inner.data_store.stores lifetime)))) := rfl
    rw [hfold, happ, hrest, hstep]

/-! ### Initialization and bootstrap helpers -/

theorem initialize_inner_flags (g : Glean) (dataPath : String) (firstRun : Bool)
    (fresh : String) :
    ( g.initialize dataPath firstRun fresh).inner.initialized = true ∧
    ( g.initialize dataPath firstRun fresh).inner.upload_enabled = g.inner.upload_enabled := by
  unfold Glean.initialize Glean.initialize_core_metrics Glean.generate_if_missing
  set g0 : Glean := { g with inner := g.inner.initialize dataPath } with hg0
  have h1 := record_inner_frame g0 coreLifetime corePing firstRunKey (.Boolean firstRun)
  set g1 : Glean := g0.record coreLifetime corePing firstRunKey (.Boolean firstRun) with hg1
  have h2 := record_with_inner_frame g1 coreLifetime corePing clientIdKey
    (fun cur =>
      match cur with
      | some m => m
      | none => .Uuid fresh)
  refine ⟨h2.1.trans (h1.1.trans rfl), h2.2.1.trans (h1.2.1.trans rfl)⟩

/-- The raw storage key the client identifier is stored under: the core
lifetime is globally scoped, so the storage key is the metric key
itself. -/
theorem storageKey_core_clientId : storageKey coreLifetime corePing clientIdKey = clientIdKey :=
  rfl

theorem clientId_generate_if_missing (g : Glean) (fresh : String)
    (hi : g.inner.initialized = true) (hu : g.inner.upload_enabled = true) :
    (g.generate_if_missing fresh).clientId =
      some (match g.clientId with
            | some m => m
            | none => .Uuid fresh) := by
  unfold Glean.generate_if_missing Glean.clientId
  rw [lookupKey_record_with g coreLifetime corePing clientIdKey _ hi hu]

theorem clientId_record_other (g : Glean) (lifetime : Lifetime) (pingName key : String)
    (metric : Metric) (hkey : storageKey lifetime pingName key ≠ clientIdKey) :
    (g.record lifetime pingName key metric).clientId = g.clientId := by
  unfold Glean.record Glean.clientId
  split
  · by_cases hl : lifetime = coreLifetime
    · subst hl
      simp only [Database.record, Function.update_same]
      exact lookupKey_putKey_ne _ _ (fun h => hkey h.symm) _ _
    · simp only [Database.record]
      rw [Function.update_noteq (Ne.symm hl)]
  · rfl

/-- Invariant preservation: a `record` keeps every store sorted. -/
theorem record_preserves_sortedStore (g : Glean) (lifetime l' : Lifetime)
    (pingName key : String) (metric : Metric)
    (hs : SortedStore (g.inner.data_store.stores l')) :
    SortedStore ((g.record lifetime pingName key metric).inner.data_store.stores l') := by
  unfold Glean.record
  split
  · simp only [Database.record]
    by_cases hl : l' = lifetime
    · subst hl
      rw [Function.update_same]
      exact sortedStore_putKey _ _ hs
    · rw [Function.update_noteq hl]
      exact hs
  · exact hs

/-- Invariant preservation: a `record_with` keeps every store sorted. -/
theorem record_with_preserves_sortedStore (g : Glean) (lifetime l' : Lifetime)
    (pingName key : String) (transform : Option Metric → Metric)
    (hs : SortedStore (g.inner.data_store.stores l')) :
    SortedStore ((g.record_with lifetime pingName key transform).inner.data_store.stores l') := by
  unfold Glean.record_with
  split
  · simp only [Database.record_with]
    by_cases hl : l' = lifetime
    · subst hl
      rw [Function.update_same]
      exact sortedStore_putKey _ _ hs
    · rw [Function.update_noteq hl]
      exact hs
  · exact hs

/-! ### The claims -/

/-- C1: `record_with` is an atomic read-modify-write: in an initialized,
upload-enabled state the value stored at the key after the call is
exactly the transform applied to the previously stored value (or none);
and the serialized execution of any sequence of such calls — the
linearization produced by the exclusive lock — loses no update: the final
stored value is the fold of all the transforms, in lock-acquisition
order, over the initially stored value. -/
theorem record_with_read_modify_write (g : Glean) (lifetime : Lifetime)
    (pingName key : String) (transform : Option Metric → Metric)
    (ts : List (Option Metric → Metric))
    (hi : g.inner.initialized = true) (hu : g.inner.upload_enabled = true) :
    lookupKey (storageKey lifetime pingName key)
        ((g.record_with lifetime pingName key transform).inner.data_store.stores lifetime) =
      some (transform (lookupKey (storageKey lifetime pingName key)
        (g.inner.data_store.stores lifetime))) ∧
    lookupKey (storageKey lifetime pingName key)
        ((recordAllWith g lifetime pingName key ts).inner.data_store.stores lifetime) =
      applyTransforms ts (lookupKey (storageKey lifetime pingName key)
        (g.inner.data_store.stores lifetime)) :=
  ⟨lookupKey_record_with g lifetime pingName key transform hi hu,
   lookupKey_recordAllWith lifetime pingName key ts g hi hu⟩

/-- Witness for C1: two serialized counter increments on a fresh key end
at the increment of the increment of none. -/
theorem record_with_read_modify_write_witness :
    lookupKey (storageKey .Ping "metrics" "counter#a")
        ((gBoot.record_with .Ping "metrics" "counter#a" bump).inner.data_store.stores .Ping) =
      some (bump (lookupKey (storageKey .Ping "metrics" "counter#a")
        (gBoot.inner.data_store.stores .Ping))) ∧
    lookupKey (storageKey .Ping "metrics" "counter#a")
        ((recordAllWith gBoot .Ping "metrics" "counter#a"
          [bump, bump]).inner.data_store.stores .Ping) =
      applyTransforms [bump, bump] (lookupKey (storageKey .Ping "metrics" "counter#a")
        (gBoot.inner.data_store.stores .Ping)) :=
  record_with_read_modify_write gBoot .Ping "metrics" "counter#a" bump [bump, bump]
    (by decide) (by decide)

/-- C2: a `record` issued while upload is disabled, or before
initialization, is silently dropped: the facade state is unchanged, so no
entry is stored, and nothing is reported to the caller (the operation's
whole result is the unchanged state). -/
theorem record_dropped_when_disabled (g : Glean) (lifetime : Lifetime)
    (pingName key : String) (metric : Metric)
    (h : g.inner.upload_enabled = false ∨ g.inner.initialized = false) :
    g.record lifetime pingName key metric = g := by
  unfold Glean.record
  rcases h with h | h <;> simp [h]

/-- Witness for C2: a write to a disabled instance and a write to a
never-initialized instance are both dropped. -/
theorem record_dropped_when_disabled_witness :
    (gBoot.set_upload_enabled false).record .Ping "metrics" "counter#a" (.Counter 1)
        = gBoot.set_upload_enabled false ∧
    Glean.new.record .Ping "metrics" "counter#a" (.Counter 1) = Glean.new :=
  ⟨record_dropped_when_disabled (gBoot.set_upload_enabled false) .Ping "metrics" "counter#a"
      (.Counter 1) (Or.inl rfl),
   record_dropped_when_disabled Glean.new .Ping "metrics" "counter#a"
      (.Counter 1) (Or.inr rfl)⟩

/-- C3: recording before initialization is a silent no-op (the state is
unchanged and nothing crashes — every operation is total), and after
`initialize` completes `is_initialized` answers true and a subsequently
recorded entry is retrievable through `iter_store_from` from any start at
or below its storage key. -/
theorem preinit_noop_then_retrievable (g : Glean) (lifetime : Lifetime)
    (pingName key iterStart dataPath fresh : String) (metric : Metric) (firstRun : Bool)
    (hninit : g.inner.initialized = false) (hu : g.inner.upload_enabled = true)
    (hstart : iterStart ≤ storageKey lifetime pingName key) :
    g.record lifetime pingName key metric = g ∧
    (g.is_initialized).1 = false ∧
    (( g.initialize dataPath firstRun fresh).is_initialized).1 = true ∧
    (storageKey lifetime pingName key, metric) ∈
      ((( g.initialize dataPath firstRun fresh).record lifetime pingName key
        metric).iter_store_from lifetime iterStart).1 := by
  have hflags := initialize_inner_flags g dataPath firstRun fresh
  refine ⟨?_, hninit, hflags.1, ?_⟩
  · unfold Glean.record
    simp [hninit]
  · have hrec := record_stores_eq ( g.initialize dataPath firstRun fresh) lifetime pingName
      key metric hflags.1 (hflags.2.trans hu)
    show (storageKey lifetime pingName key, metric) ∈
      ((( g.initialize dataPath firstRun fresh).record lifetime pingName
        key metric).inner.data_store.stores lifetime).filter
        (fun e => decide (iterStart ≤ e.1))
    rw [hrec]
    exact List.mem_filter.mpr ⟨mem_putKey_self _ _ _, decide_eq_true hstart⟩

/-- Witness for C3 on a fresh instance, a concrete path and metric, and
iteration from the empty start key. -/
theorem preinit_noop_then_retrievable_witness :
    Glean.new.record .Ping "metrics" "counter#a" (.Counter 1) = Glean.new ∧
    (Glean.new.is_initialized).1 = false ∧
    (( Glean.new.initialize "/tmp/x" true "id-0").is_initialized).1 = true ∧
    (storageKey .Ping "metrics" "counter#a", Metric.Counter 1) ∈
      ((( Glean.new.initialize "/tmp/x" true "id-0").record .Ping "metrics" "counter#a"
        (.Counter 1)).iter_store_from .Ping "").1 :=
  preinit_noop_then_retrievable Glean.new .Ping "metrics" "counter#a" "" "/tmp/x" "id-0"
    (.Counter 1) true rfl rfl (string_empty_le _)

/-- C4: `write_with_store` is all-or-nothing: the transaction function's
result is committed exactly when it completes without failure, and on
failure the facade state — in particular every key of that store — is
exactly as before, so no partial write is visible. -/
theorem write_with_store_all_or_nothing (g : Glean) (storeName : Lifetime)
    (transactionFn : Store → Except String Store) :
    (∀ s, transactionFn (g.inner.data_store.stores storeName) = .ok s →
      (g.write_with_store storeName transactionFn).inner.data_store.stores storeName = s) ∧
    (∀ err, transactionFn (g.inner.data_store.stores storeName) = .error err →
      g.write_with_store storeName transactionFn = g ∧
      ∀ k, lookupKey k
          ((g.write_with_store storeName transactionFn).inner.data_store.stores storeName)
        = lookupKey k (g.inner.data_store.stores storeName)) := by
  constructor
  · intro s hok
    unfold Glean.write_with_store Database.write_with_store
    rw [hok]
    exact Function.update_same _ _ _
  · intro err herr
    have hsame : g.write_with_store storeName transactionFn = g := by
      unfold Glean.write_with_store Database.write_with_store
      rw [herr]
    exact ⟨hsame, fun k => by rw [hsame]⟩

/-- Witness for C4: a committing transaction's write is visible and a
failing transaction leaves the fresh state untouched. -/
theorem write_with_store_all_or_nothing_witness :
    (Glean.new.write_with_store .Ping txnOk).inner.data_store.stores .Ping
        = [("w1", .Counter 7)] ∧
    Glean.new.write_with_store .Ping txnFail = Glean.new :=
  ⟨(write_with_store_all_or_nothing Glean.new .Ping txnOk).1 [("w1", .Counter 7)] rfl,
   ((write_with_store_all_or_nothing Glean.new .Ping txnFail).2 "diskfull" rfl).1⟩

/-- C5: lifetime isolation: a write under one lifetime leaves every other
lifetime's store untouched (same key or not), iteration over the other
lifetime is unaffected by the write, and iteration over a lifetime only
ever yields entries of that lifetime's own store. -/
theorem lifetime_isolation (g : Glean) (l l' : Lifetime) (hne : l ≠ l')
    (pingName key iterStart : String) (metric : Metric) :
    (g.record l pingName key metric).inner.data_store.stores l' =
      g.inner.data_store.stores l' ∧
    ((g.record l pingName key metric).iter_store_from l' iterStart).1 =
      (g.iter_store_from l' iterStart).1 ∧
    (∀ e ∈ (g.iter_store_from l' iterStart).1, e ∈ g.inner.data_store.stores l') := by
  have hstores : (g.record l pingName key metric).inner.data_store.stores l' =
      g.inner.data_store.stores l' := by
    unfold Glean.record
    split
    · simp only [Database.record]
      exact Function.update_noteq (Ne.symm hne) _ _
    · rfl
  refine ⟨hstores, ?_, ?_⟩
  · show ((g.record l pingName key metric).inner.data_store.stores l').filter
        (fun e => decide (iterStart ≤ e.1))
      = (g.inner.data_store.stores l').filter (fun e => decide (iterStart ≤ e.1))
    rw [hstores]
  · intro e he
    have he' : e ∈ (g.inner.data_store.stores l').filter
        (fun e => decide (iterStart ≤ e.1)) := he
    exact (List.mem_filter.mp he').1

/-- Witness for C5: recording under the Ping lifetime does not touch the
User store of an initialized instance. -/
theorem lifetime_isolation_witness :
    (gBoot.record .Ping "metrics" "counter#a" (.Counter 1)).inner.data_store.stores .User =
      gBoot.inner.data_store.stores .User ∧
    ((gBoot.record .Ping "metrics" "counter#a" (.Counter 1)).iter_store_from .User "").1 =
      (gBoot.iter_store_from .User "").1 := by
  have h := lifetime_isolation gBoot .Ping .User (by decide) "metrics" "counter#a" ""
    (.Counter 1)
  exact ⟨h.1, h.2.1⟩

/-- C6: `initialize` is two-phase: its trace is the exclusive-locked
coordinator setup (acquire, open the store at the data path and set the
initialized flag, release) followed by the bootstrap recordings, each
issued through the public recording API; the coordinator setup runs while
`initialize` holds the exclusive lock, the lock is released at the end of
the locked phase, and at every bootstrap recording event `initialize`'s
exclusive lock is no longer held. -/
theorem initialize_bootstrap_after_unlock (dataPath : String) :
    initializeTrace dataPath = initializeLockedPhase dataPath ++ bootstrapPhase ∧
    initializeLockedPhase dataPath =
      [.acquireExclusive "initialize", .coordInitialize dataPath,
       .releaseExclusive "initialize"] ∧
    initLockHeld ((initializeLockedPhase dataPath).take 1) ∧
    ¬ initLockHeld (initializeLockedPhase dataPath) ∧
    (∀ i (hlt : i < 9),
      isBootstrapRecord ((initializeTrace dataPath).get ⟨i, hlt⟩) = true →
      ¬ initLockHeld ((initializeTrace dataPath).take i)) := by
  refine ⟨rfl, rfl, Nat.zero_lt_one, fun hc => Nat.lt_irrefl 1 hc, ?_⟩
  intro i hlt
  interval_cases i
  · exact fun hb => Bool.noConfusion hb
  · exact fun hb => Bool.noConfusion hb
  · exact fun hb => Bool.noConfusion hb
  · exact fun hb => Bool.noConfusion hb
  · exact fun _ hc => Nat.lt_irrefl 1 hc
  · exact fun hb => Bool.noConfusion hb
  · exact fun hb => Bool.noConfusion hb
  · exact fun _ hc => Nat.lt_irrefl 1 hc
  · exact fun hb => Bool.noConfusion hb

/-- Witness for C6 at a concrete path: the first bootstrap recording (the
first-run metric, at index 4) happens with the initialize frame's lock
balance at zero. -/
theorem initialize_bootstrap_after_unlock_witness :
    ¬ initLockHeld ((initializeTrace "/tmp/x").take 4) :=
  (initialize_bootstrap_after_unlock "/tmp/x").2.2.2.2 4 (by decide) (by decide)

/-- The fixture store of `gIter` is sorted. -/
theorem gIter_sorted : SortedStore (gIter.inner.data_store.stores .Ping) := by
  show SortedStore [("a", .Counter 1), ("m", .Counter 2), ("z", .Counter 3)]
  rw [SortedStore]
  simp
  exact ⟨⟨List.Lex.rel (by decide), List.Lex.rel (by decide)⟩, List.Lex.rel (by decide)⟩

/-- C7: `iter_store_from` visits, in strictly increasing key order,
exactly those stored entries of the lifetime whose key is
lexicographically at or after the start key — in particular every key
below the start key is excluded. -/
theorem iter_store_from_ordered_from_start (g : Glean) (lifetime : Lifetime)
    (iterStart : String) (hs : SortedStore (g.inner.data_store.stores lifetime)) :
    SortedStore (g.iter_store_from lifetime iterStart).1 ∧
    ∀ e : String × Metric,
      e ∈ (g.iter_store_from lifetime iterStart).1 ↔
        e ∈ g.inner.data_store.stores lifetime ∧ iterStart ≤ e.1 := by
  constructor
  · exact List.Pairwise.filter _ hs
  · intro e
    constructor
    · intro he
      have he' : e ∈ (g.inner.data_store.stores lifetime).filter
          (fun e => decide (iterStart ≤ e.1)) := he
      have h := List.mem_filter.mp he'
      exact ⟨h.1, of_decide_eq_true h.2⟩
    · intro h
      exact List.mem_filter.mpr ⟨h.1, decide_eq_true h.2⟩

/-- Witness for C7 on a three-entry sorted store, iterating from a middle
start key. -/
theorem iter_store_from_ordered_from_start_witness :
    SortedStore (gIter.iter_store_from .Ping "m").1 ∧
    (("m", Metric.Counter 2) ∈ (gIter.iter_store_from .Ping "m").1 ↔
      ("m", Metric.Counter 2) ∈ gIter.inner.data_store.stores .Ping ∧
        ("m" : String) ≤ "m") := by
  have h := iter_store_from_ordered_from_start gIter .Ping "m" gIter_sorted
  exact ⟨h.1, h.2 ("m", Metric.Counter 2)⟩

/-- C8: `set_upload_enabled` is a pure flag flip: it never mutates stored
data (toggling it off and back on leaves the whole store adapter, hence
every previously stored value, unchanged), and `is_upload_enabled`
reflects the most recent call. -/
theorem set_upload_enabled_pure_flag_flip (g : Glean) (flag : Bool) :
    (g.set_upload_enabled flag).inner.data_store = g.inner.data_store ∧
    ((g.set_upload_enabled flag).is_upload_enabled).1 = flag ∧
    ((g.set_upload_enabled false).set_upload_enabled true).inner.data_store
      = g.inner.data_store ∧
    (((g.set_upload_enabled false).set_upload_enabled true).is_upload_enabled).1 = true :=
  ⟨rfl, rfl, rfl, rfl⟩

/-- C9: the bootstrap sequence is idempotent with respect to the client
identifier: against a store that already holds one, the identifier is not
regenerated — one bootstrap run keeps it, and a second run (with any
other candidate identifiers and first-run statuses) yields the very same
stored identifier. -/
theorem bootstrap_client_id_idempotent (g : Glean) (firstRun firstRun' : Bool)
    (fresh fresh' : String) (m : Metric)
    (hi : g.inner.initialized = true) (hu : g.inner.upload_enabled = true)
    (hm : g.clientId = some m) :
    (g.initialize_core_metrics firstRun fresh).clientId = some m ∧
    ((g.initialize_core_metrics firstRun fresh).initialize_core_metrics
      firstRun' fresh').clientId = some m := by
  have hrunOnce : ∀ (h : Glean) (fr : Bool) (fs : String),
      h.inner.initialized = true → h.inner.upload_enabled = true →
      h.clientId = some m → (h.initialize_core_metrics fr fs).clientId = some m := by
    intro h fr fs hhi hhu hhm
    unfold Glean.initialize_core_metrics
    have hf0 := record_inner_frame h coreLifetime corePing firstRunKey (.Boolean fr)
    have h0 : (h.record coreLifetime corePing firstRunKey (.Boolean fr)).clientId
        = some m := by
      rw [clientId_record_other h coreLifetime corePing firstRunKey (.Boolean fr)
        (by decide), hhm]
    rw [clientId_generate_if_missing _ fs (hf0.1.trans hhi) (hf0.2.1.trans hhu), h0]
  have hfirst := hrunOnce g firstRun fresh hi hu hm
  have hflagsOnce : (g.initialize_core_metrics firstRun fresh).inner.initialized = true ∧
      (g.initialize_core_metrics firstRun fresh).inner.upload_enabled = true := by
    unfold Glean.initialize_core_metrics
    have hf0 := record_inner_frame g coreLifetime corePing firstRunKey (.Boolean firstRun)
    have hf1 := record_with_inner_frame
      (g.record coreLifetime corePing firstRunKey (.Boolean firstRun))
      coreLifetime corePing clientIdKey
      (fun cur =>
        match cur with
        | some m => m
        | none => .Uuid fresh)
    exact ⟨hf1.1.trans (hf0.1.trans hi), hf1.2.1.trans (hf0.2.1.trans hu)⟩
  exact ⟨hfirst,
    hrunOnce (g.initialize_core_metrics firstRun fresh) firstRun' fresh'
      hflagsOnce.1 hflagsOnce.2 hfirst⟩

/-- Witness for C9 on a store already holding a client identifier: two
bootstrap runs with other candidate identifiers keep it. -/
theorem bootstrap_client_id_idempotent_witness :
    (gWithId.initialize_core_metrics false "id-1").clientId = some (.Uuid "cid-7") ∧
    ((gWithId.initialize_core_metrics false "id-1").initialize_core_metrics
      true "id-2").clientId = some (.Uuid "cid-7") :=
  bootstrap_client_id_idempotent gWithId false true "id-1" "id-2" (.Uuid "cid-7")
    rfl rfl rfl

/-- C10: frame effects of the facade: the writers `record`, `record_with`
and `write_with_store` never change the initialized flag or the
upload-enabled flag, and the readers `iter_store_from`, `is_initialized`
and `is_upload_enabled` leave the whole facade state — stored metric data
and every coordinator field — unchanged. -/
theorem facade_frame_effects (g : Glean) (lifetime : Lifetime)
    (pingName key iterStart : String) (metric : Metric)
    (transform : Option Metric → Metric) (transactionFn : Store → Except String Store) :
    ((g.record lifetime pingName key metric).inner.initialized = g.inner.initialized ∧
     (g.record lifetime pingName key metric).inner.upload_enabled =
       g.inner.upload_enabled) ∧
    ((g.record_with lifetime pingName key transform).inner.initialized =
       g.inner.initialized ∧
     (g.record_with lifetime pingName key transform).inner.upload_enabled =
       g.inner.upload_enabled) ∧
    ((g.write_with_store lifetime transactionFn).inner.initialized =
       g.inner.initialized ∧
     (g.write_with_store lifetime transactionFn).inner.upload_enabled =
       g.inner.upload_enabled) ∧
    (g.iter_store_from lifetime iterStart).2 = g ∧
    (g.is_initialized).2 = g ∧
    (g.is_upload_enabled).2 = g := by
  have h1 := record_inner_frame g lifetime pingName key metric
  have h2 := record_with_inner_frame g lifetime pingName key transform
  have h3 := write_with_store_inner_frame g lifetime transactionFn
  exact ⟨⟨h1.1, h1.2.1⟩, ⟨h2.1, h2.2.1⟩, ⟨h3.1, h3.2.1⟩, rfl, rfl, rfl⟩

end GleanCore
